import Mathlib

/-!
Verification development for the redstone-signal core of the container
builder: the signal scorer (calculateSignalStrength) and the slot optimizer
(optimizeForRedstone) from src/MinecraftItemBuilder.tsx.

Modelling conventions:
* A container is a list of optional slots; null becomes none.
* The source computes the signal with real arithmetic and one final floor.
  Here the same formula is computed exactly: the fill sum is carried as an
  unreduced fraction of naturals and the final floor is one integer
  division.  The theorem signalOfPairs_eq proves this equal to the
  rational floor formula.
* Inert display fields of an item (name, sprite, color, category, group,
  material) are never read or written by the scorer or the optimizer apart
  from being copied wholesale by object spreads, so they are omitted from
  the model.
* The working phase of the optimizer acts on slots whose quantity and
  originalIndex are definite (the source type OptimizedSlot); the external
  phase uses optional fields (the source type Slot).
* The two places where the source can throw (reduce of an empty array
  without an initial value, and Array of a negative length) are modelled by
  an Option-valued optimizer.
-/

/-- Slot as seen from outside the optimizer: an item reference with optional
quantity and optional optimizer markers. Mirrors the source interface Slot. -/
structure Slot where
  id : String
  stack_size : Nat
  rarity : String
  quantity : Option Nat
  originalIndex : Option Int
  forceAdjusted : Option Bool
  isAdjusted : Option Bool
  isDuplicate : Bool
  deriving Repr, DecidableEq

/-- Working slot inside the optimizer: quantity and originalIndex are
definite, forceAdjusted is a definite boolean once classification ran.
Mirrors the source interface OptimizedSlot. -/
structure WSlot where
  id : String
  stack_size : Nat
  rarity : String
  quantity : Nat
  originalIndex : Int
  forceAdjusted : Bool
  isAdjusted : Option Bool
  isDuplicate : Bool
  deriving Repr, DecidableEq

/-- Conversion of a working slot back to the external shape; every definite
field is wrapped in some. -/
def WSlot.toSlot (w : WSlot) : Slot :=
  { id := w.id, stack_size := w.stack_size, rarity := w.rarity,
    quantity := some w.quantity, originalIndex := some w.originalIndex,
    forceAdjusted := some w.forceAdjusted, isAdjusted := w.isAdjusted,
    isDuplicate := w.isDuplicate }

/-- Rarity rank: common 0, uncommon 1, rare 2, epic 3, anything else 0.
Mirrors getRarityOrder of the source. -/
def getRarityOrder (r : String) : Nat :=
  if r = "common" then 0
  else if r = "uncommon" then 1
  else if r = "rare" then 2
  else if r = "epic" then 3
  else 0

/-- Effective stack limit used by the scorer: Math.min(64, stack_size || 64),
where a zero stack size is falsy and defaults to 64. -/
def jsLimit (stack : Nat) : Nat :=
  min 64 (if stack = 0 then 64 else stack)

/-- Effective quantity: quantity || 1, where undefined and zero default
to 1. -/
def jsOr1 (q : Option Nat) : Nat :=
  match q with
  | none => 1
  | some n => if n = 0 then 1 else n

/-- One scorer step on the running fill sum held as an unreduced fraction
(numerator, denominator): adds quantity / limit for one item. -/
def fillStep (s : Nat × Nat) (p : Nat × Nat) : Nat × Nat :=
  (s.1 * jsLimit p.2 + p.1 * s.2, s.2 * jsLimit p.2)

/-- Signal strength of a list of (effective quantity, stack size) pairs:
floor((14 / 54) * fillSum + min(1, length)), computed exactly.  For a
nonempty list the min term is 1 and the floor is the integer division
(14 num + 54 den) / (54 den) on the exactly accumulated fraction. -/
def signalOfPairs (l : List (Nat × Nat)) : Nat :=
  if l.length = 0 then 0
  else
    let f := l.foldl fillStep (0, 1)
    (14 * f.1 + 54 * f.2) / (54 * f.2)

/-- Signal strength of a container, as in calculateSignalStrength of the
source: occupied slots are kept, the fill fractions quantity / limit are
summed and the floor formula is applied. -/
def calculateSignalStrength (slots : List (Option Slot)) : Nat :=
  signalOfPairs (((slots.filterMap fun x => x).map
    fun it => (jsOr1 it.quantity, it.stack_size)))

/-- Signal strength of a working container; the same function applied to the
definite working slots (quantity || 1 on a definite quantity). -/
def calcW (w : List (Option WSlot)) : Nat :=
  signalOfPairs (((w.filterMap fun x => x).map
    fun it => (jsOr1 (some it.quantity), it.stack_size)))

/-- Fill fraction of one (quantity, stack) pair as a rational. -/
def fillQ (p : Nat × Nat) : ℚ :=
  (p.1 : ℚ) / (jsLimit p.2 : ℚ)

/-- Exact rational fill sum of a list of pairs. -/
def fillSumQ (l : List (Nat × Nat)) : ℚ :=
  (l.map fillQ).sum

theorem jsLimit_pos (stack : Nat) : 0 < jsLimit stack := by
  unfold jsLimit
  split <;> omega

theorem jsOr1_pos (q : Option Nat) : 0 < jsOr1 q := by
  unfold jsOr1
  match q with
  | none => exact Nat.one_pos
  | some n => dsimp only; split <;> omega

/-- The accumulated fraction of the fold has a positive denominator and
represents exactly the rational fill sum plus the initial value. -/
theorem foldl_fillStep_spec (l : List (Nat × Nat)) (s : Nat × Nat)
    (hs : 0 < s.2) :
    0 < (l.foldl fillStep s).2 ∧
      ((l.foldl fillStep s).1 : ℚ) / ((l.foldl fillStep s).2 : ℚ)
        = (s.1 : ℚ) / (s.2 : ℚ) + fillSumQ l := by
  induction l generalizing s with
  | nil => simpa [fillSumQ] using hs
  | cons p rest ih =>
    have hlim : 0 < jsLimit p.2 := jsLimit_pos p.2
    have hs2 : 0 < (fillStep s p).2 := by
      simp only [fillStep]
      exact Nat.mul_pos hs hlim
    obtain ⟨hpos, heq⟩ := ih (fillStep s p) hs2
    refine ⟨by simpa using hpos, ?_⟩
    simp only [List.foldl_cons] at *
    rw [heq]
    have h1 : ((fillStep s p).1 : ℚ) = (s.1 : ℚ) * (jsLimit p.2 : ℚ)
        + (p.1 : ℚ) * (s.2 : ℚ) := by
      simp only [fillStep]
      push_cast
      ring
    have h2 : ((fillStep s p).2 : ℚ) = (s.2 : ℚ) * (jsLimit p.2 : ℚ) := by
      simp only [fillStep]
      push_cast
      ring
    have hsq : (s.2 : ℚ) ≠ 0 := by
      exact_mod_cast Nat.pos_iff_ne_zero.mp hs
    have hlq : (jsLimit p.2 : ℚ) ≠ 0 := by
      exact_mod_cast Nat.pos_iff_ne_zero.mp hlim
    rw [h1, h2]
    simp only [fillSumQ, List.map_cons, List.sum_cons, fillQ]
    field_simp
    ring

/-- Natural division is the rational floor of the cast quotient. -/
theorem nat_div_eq_floor (a b : Nat) :
    ((a / b : Nat) : ℤ) = ⌊(a : ℚ) / (b : ℚ)⌋ := by
  rw [Rat.floor_natCast_div_natCast]
  exact (Int.natCast_div a b).symm

/-- Signal of a nonempty pair list equals the rational floor formula with
min term 1. -/
theorem signalOfPairs_eq (l : List (Nat × Nat)) (h : l ≠ []) :
    (signalOfPairs l : ℤ) = ⌊(14 / 54 : ℚ) * fillSumQ l + 1⌋ := by
  obtain ⟨hpos, heq⟩ := foldl_fillStep_spec l (0, 1) Nat.one_pos
  have hlen : ¬ l.length = 0 := by simpa using h
  unfold signalOfPairs
  rw [if_neg hlen]
  set f := l.foldl fillStep (0, 1) with hf
  have hq : ((f.2 : ℚ)) ≠ 0 := by
    exact_mod_cast Nat.pos_iff_ne_zero.mp hpos
  have hF : fillSumQ l = (f.1 : ℚ) / (f.2 : ℚ) := by
    rw [heq]; push_cast; ring
  rw [nat_div_eq_floor]
  congr 1
  rw [hF]
  push_cast
  field_simp

/-- Occupied slots of a working container, in position order. -/
def occList (w : List (Option WSlot)) : List WSlot :=
  w.filterMap fun x => x

/-- Number of occupied slots holding a given identifier; mirrors the
itemCounts dictionary lookup with default 0. -/
def countId (w : List (Option WSlot)) (i : String) : Nat :=
  (occList w).countP fun it => it.id == i

/-- Normalization of one occupied slot at a given index: quantity defaults
to 1 and originalIndex to the current position, as in the initial map of
optimizeForRedstone.  The forceAdjusted marker is carried as a plain
boolean; it is written by classification before any later read. -/
def normalizeSlot (idx : Nat) (s : Slot) : WSlot :=
  { id := s.id, stack_size := s.stack_size, rarity := s.rarity,
    quantity := jsOr1 s.quantity, originalIndex := s.originalIndex.getD idx,
    forceAdjusted := s.forceAdjusted.getD false, isAdjusted := s.isAdjusted,
    isDuplicate := s.isDuplicate }

/-- Normalization of the whole container. -/
def normalizeSlots (slots : List (Option Slot)) : List (Option WSlot) :=
  slots.enum.map fun p => p.2.map (normalizeSlot p.1)

/-- Classification loop of the source: an occupied slot is marked
forceAdjusted when its quantity exceeds 1 or when the container holds more
than one occurrence of its identifier.  The same loop is run again by the
source after the strategies to refresh the markers. -/
def classifySlots (w : List (Option WSlot)) : List (Option WSlot) :=
  w.map fun s => s.map fun it =>
    { it with forceAdjusted :=
        decide (1 < it.quantity) || decide (1 < countId w it.id) }

/-- Check for any occupied slot with quantity above 1. -/
def hasQuantityAdjustments (w : List (Option WSlot)) : Bool :=
  w.any fun s =>
    match s with
    | some it => decide (1 < it.quantity)
    | none => false

/-- Fallback of the source: mark every occupied slot as a candidate. -/
def markAllForced (w : List (Option WSlot)) : List (Option WSlot) :=
  w.map fun s => s.map fun it => { it with forceAdjusted := true }

/-- Snapshot of the forced occupied slots in position order; mirrors the
forcedItems array of the source. -/
def forcedWSlots (w : List (Option WSlot)) : List WSlot :=
  (occList w).filter fun it => it.forceAdjusted

/-- Positions of the forced occupied slots; used where the source keeps
live references into the working array. -/
def forcedIndices (w : List (Option WSlot)) : List Nat :=
  w.enum.filterMap fun p =>
    match p.2 with
    | some it => if it.forceAdjusted then some p.1 else none
    | none => none

/-- Positions of the empty slots skipping the reserved slot 0; mirrors
entries().drop(1).filter(item == null). -/
def emptyIndices (w : List (Option WSlot)) : List Nat :=
  w.enum.filterMap fun p =>
    if 1 ≤ p.1 && p.2.isNone then some p.1 else none

/-- Choice of the unstackable to duplicate in strategy 1: the reduce of the
source starts from the first unstackable candidate and replaces it only on
strictly lower rarity rank. -/
def pickUnstackable (forced : List WSlot) : Option WSlot :=
  match forced.filter fun it => it.stack_size == 1 with
  | [] => none
  | u :: us => some ((u :: us).foldl
      (fun acc it =>
        if getRarityOrder it.rarity < getRarityOrder acc.rarity then it
        else acc) u)

/-- Duplicate unit placed by strategy 1. -/
def dupOfUnstackable (t : WSlot) : WSlot :=
  { t with
    quantity := 1
    originalIndex := -1
    isDuplicate := true
    forceAdjusted := true }

/-- Strategy 1 filling loop: place one duplicate per empty position and
stop at the first placement that raises the signal; removing that last
placement restores exactly the state before it. -/
def strat1Loop (t : WSlot) (cur : Nat) :
    List Nat → List (Option WSlot) → List (Option WSlot) × Bool
  | [], w => (w, false)
  | i :: rest, w =>
    let w2 := w.set i (some (dupOfUnstackable t))
    if cur < calcW w2 then (w, true)
    else strat1Loop t cur rest w2

/-- Strategy 1 of the source: duplicate the chosen unstackable into empty
slots, only in plain duplication mode. -/
def strategy1 (hasU hasQ : Bool) (forced : List WSlot) (cur : Nat)
    (w : List (Option WSlot)) : List (Option WSlot) × Bool :=
  if hasU && !hasQ then
    match pickUnstackable forced with
    | none => (w, false)
    | some t => strat1Loop t cur (emptyIndices w) w
  else (w, false)

/-- Inner increment loop shared by strategies 2, 3 and 5: raise the
quantity at one position one unit at a time while it is below the limit,
recomputing the signal each time; on the first increment that raises the
signal the increment is undone, which restores exactly the previous state,
and the Bool result reports that the threshold was found. -/
def incUntil (limit cur i : Nat) :
    Nat → List (Option WSlot) → List (Option WSlot) × Bool
  | 0, w => (w, false)
  | fuel + 1, w =>
    match w.getD i none with
    | none => (w, false)
    | some it =>
      if it.quantity < limit then
        let w2 := w.set i (some { it with quantity := it.quantity + 1 })
        if cur < calcW w2 then (w, true)
        else incUntil limit cur i fuel w2
      else (w, false)

/-- Snapshot for strategies 2 and 3: positions after the reserved slot
holding a forced item of the given stack size, walked from the end. -/
def stackClassIndices (stackVal : Nat) (w : List (Option WSlot)) :
    List Nat :=
  (w.enum.filterMap fun p =>
    match p.2 with
    | some it =>
      if 1 ≤ p.1 && it.forceAdjusted && it.stack_size == stackVal then
        some p.1
      else none
    | none => none).reverse

/-- Outer loop of strategies 2 and 3 over the snapshot positions; a found
threshold stops the whole strategy. -/
def strat23Go (limit cur : Nat) :
    List Nat → List (Option WSlot) → List (Option WSlot) × Bool
  | [], w => (w, false)
  | i :: rest, w =>
    match incUntil limit cur i limit w with
    | (w2, true) => (w2, true)
    | (w2, false) => strat23Go limit cur rest w2

/-- Strategy 2 of the source: increment forced 16-stackables from the end. -/
def strategy2 (has16 : Bool) (cur : Nat) (w : List (Option WSlot)) :
    List (Option WSlot) × Bool :=
  if has16 then strat23Go 16 cur (stackClassIndices 16 w) w else (w, false)

/-- Strategy 3 of the source: increment forced 64-stackables from the end. -/
def strategy3 (has64 : Bool) (cur : Nat) (w : List (Option WSlot)) :
    List (Option WSlot) × Bool :=
  if has64 then strat23Go 64 cur (stackClassIndices 64 w) w else (w, false)

/-- Check of strategy 4 that no forced item is below its stack limit. -/
def allMaxedCheck (w : List (Option WSlot)) : Bool :=
  !(w.any fun s =>
    match s with
    | some it => it.forceAdjusted && decide (it.quantity < it.stack_size)
    | none => false)

/-- Reduce of strategy 4 choosing the item to clone: no initial value, the
accumulator is replaced only when the candidate has both a stack size at
least as large and a strictly lower rarity rank.  An empty candidate list
makes the source throw, modelled by none. -/
def strat4Pick : List WSlot → Option WSlot
  | [] => none
  | x :: xs => some (xs.foldl
      (fun acc it =>
        if acc.stack_size ≤ it.stack_size
            && decide (getRarityOrder it.rarity < getRarityOrder acc.rarity)
        then it else acc) x)

/-- Clone placed by strategy 4: spread of the chosen item with originalIndex
-1 and forceAdjusted true, keeping its current quantity. -/
def strat4Dup (t : WSlot) : WSlot :=
  { t with originalIndex := -1, forceAdjusted := true }

/-- Strategy 4 filling loop: place full clones into empty positions; the
first placement that raises the signal is kept but committed at quantity 1
and the loop stops. -/
def strat4Loop (t : WSlot) (cur : Nat) :
    List Nat → List (Option WSlot) → List (Option WSlot)
  | [], w => w
  | i :: rest, w =>
    let w2 := w.set i (some (strat4Dup t))
    if cur < calcW w2 then w.set i (some { strat4Dup t with quantity := 1 })
    else strat4Loop t cur rest w2

/-- Guard of strategy 4: plain duplication mode and some present stack
class missed its threshold. -/
def strat4Guard (hasQ hasU has16 has64 thrU thr16 thr64 : Bool) : Bool :=
  !hasQ && ((!thrU && hasU) || (!thr16 && has16) || (!thr64 && has64))

/-- Strategy 4 of the source: duplicate a stackable when all forced items
are maxed and some class missed its threshold. -/
def strategy4 (hasQ hasU has16 has64 thrU thr16 thr64 : Bool)
    (forcedIdx : List Nat) (cur : Nat) (w : List (Option WSlot)) :
    Option (List (Option WSlot)) :=
  if strat4Guard hasQ hasU has16 has64 thrU thr16 thr64 then
    if allMaxedCheck w then
      match strat4Pick (forcedIdx.filterMap fun i => w.getD i none) with
      | none => none
      | some t => some (strat4Loop t cur (emptyIndices w) w)
    else some w
  else some w

/-- Snapshot for strategy 5: positions of forced items below their own
stack limit, walked from the end. -/
def strat5Indices (w : List (Option WSlot)) : List Nat :=
  (w.enum.filterMap fun p =>
    match p.2 with
    | some it =>
      if it.forceAdjusted && decide (it.quantity < it.stack_size) then
        some p.1
      else none
    | none => none).reverse

/-- Outer loop of strategy 5; the limit of each position is the stack size
of the item sitting there. -/
def strat5Go (cur : Nat) :
    List Nat → List (Option WSlot) → List (Option WSlot)
  | [], w => w
  | i :: rest, w =>
    let limit :=
      match w.getD i none with
      | some it => it.stack_size
      | none => 0
    match incUntil limit cur i limit w with
    | (w2, true) => w2
    | (w2, false) => strat5Go cur rest w2

/-- Strategy 5 of the source: final increment pass over all forced items
below their stack limit, from the end. -/
def strat5Run (cur : Nat) (w : List (Option WSlot)) : List (Option WSlot) :=
  strat5Go cur (strat5Indices w) w

/-- Mark of the final loop writing isAdjusted from the refreshed
forceAdjusted. -/
def setAdjusted (it : WSlot) : WSlot :=
  { it with isAdjusted := some it.forceAdjusted }

/-- Presentation order of the adjusted group: stack size ascending, then
quantity ascending.  The source sorts with a stable comparator; a stable
ascending sort is modelled by insertion sort on this total preorder. -/
def adjLE (a b : WSlot) : Prop :=
  a.stack_size < b.stack_size
    ∨ (a.stack_size = b.stack_size ∧ a.quantity ≤ b.quantity)

instance : DecidableRel adjLE := fun a b =>
  inferInstanceAs (Decidable (a.stack_size < b.stack_size
    ∨ (a.stack_size = b.stack_size ∧ a.quantity ≤ b.quantity)))

/-- Final phase of the source: refresh the forceAdjusted markers, write
isAdjusted, split into unadjusted and adjusted, sort the adjusted group and
lay the output out as reserved slot, unadjusted, padding, adjusted.  A
negative padding length makes the source throw, modelled by none. -/
def finalizeSlots (w : List (Option WSlot)) : Option (List (Option Slot)) :=
  let w2 := classifySlots w
  let withoutNulls := (occList w2).map setAdjusted
  let adjusted := withoutNulls.filter fun it => it.forceAdjusted
  let unadjusted := withoutNulls.filter fun it => !it.forceAdjusted
  let sortedAdj := List.insertionSort adjLE adjusted
  if 53 < unadjusted.length + adjusted.length then none
  else
    some ((none :: unadjusted.map fun it => some it.toSlot)
      ++ List.replicate (53 - (unadjusted.length + adjusted.length)) none
      ++ sortedAdj.map fun it => some it.toSlot)

/-- Data computed by the pipeline before the strategies run. -/
structure OptCtx where
  cur : Nat
  hasQ : Bool
  hasU : Bool
  has16 : Bool
  has64 : Bool
  forced : List WSlot
  forcedIdx : List Nat
  start : List (Option WSlot)

/-- Construction of the pre-strategy data: normalize, take the base signal,
classify, apply the fallback, snapshot the candidates and their classes. -/
def mkCtx (slots : List (Option Slot)) : OptCtx :=
  let w0 := normalizeSlots slots
  let w1 := classifySlots w0
  let hasQ := hasQuantityAdjustments w1
  let w2 := if hasQ then w1 else markAllForced w1
  let forced := forcedWSlots w2
  { cur := calcW w0, hasQ := hasQ,
    hasU := forced.any fun it => it.stack_size == 1,
    has16 := forced.any fun it => it.stack_size == 16,
    has64 := forced.any fun it => it.stack_size == 64,
    forced := forced, forcedIdx := forcedIndices w2, start := w2 }

/-- Working state and threshold flag after strategy 1. -/
def stage1 (c : OptCtx) : List (Option WSlot) × Bool :=
  strategy1 c.hasU c.hasQ c.forced c.cur c.start

/-- Working state and threshold flag after strategy 2. -/
def stage2 (c : OptCtx) : List (Option WSlot) × Bool :=
  strategy2 c.has16 c.cur (stage1 c).1

/-- Working state and threshold flag after strategy 3. -/
def stage3 (c : OptCtx) : List (Option WSlot) × Bool :=
  strategy3 c.has64 c.cur (stage2 c).1

/-- Candidates of strategy 4 read back from the working array at their
recorded positions, with their current quantities. -/
def stage4Candidates (c : OptCtx) : List WSlot :=
  c.forcedIdx.filterMap fun i => (stage3 c).1.getD i none

/-- Guard of strategy 4 evaluated on the pipeline state. -/
def stage4Guard (c : OptCtx) : Bool :=
  strat4Guard c.hasQ c.hasU c.has16 c.has64
    (stage1 c).2 (stage2 c).2 (stage3 c).2

/-- Item chosen for cloning by strategy 4 on the pipeline state. -/
def stage4Choice (c : OptCtx) : Option WSlot :=
  strat4Pick (stage4Candidates c)

/-- Working state after strategy 4, none when the source would throw. -/
def stage4 (c : OptCtx) : Option (List (Option WSlot)) :=
  strategy4 c.hasQ c.hasU c.has16 c.has64
    (stage1 c).2 (stage2 c).2 (stage3 c).2 c.forcedIdx c.cur (stage3 c).1

/-- Working state after strategy 5. -/
def stage5 (c : OptCtx) : Option (List (Option WSlot)) :=
  (stage4 c).map fun w => strat5Run c.cur w

/-- The optimizer: an entirely empty container is returned unchanged,
otherwise the five strategies run and the result is finalized.  The value
none marks the two spots where the source would throw. -/
def optimizeForRedstone (slots : List (Option Slot)) :
    Option (List (Option Slot)) :=
  if slots.all fun x => x.isNone then some slots
  else (stage5 (mkCtx slots)).bind finalizeSlots

/-- Scorer written from the specification text, to be compared with the
translation of the source: for each occupied slot let limit be
min(64, stack limit or 64) and qty be quantity or 1, accumulate qty / limit
into the fill sum, and return floor((14 / 54) * fillSum + min(1, itemCount));
an empty container scores 0. -/
def specSignal (slots : List (Option Slot)) : ℤ :=
  let items := slots.filterMap fun x => x
  if items.length = 0 then 0
  else
    ⌊(14 / 54 : ℚ)
        * (items.map fun it =>
            (match it.quantity with
              | none => (1 : ℚ)
              | some q => if q = 0 then 1 else (q : ℚ))
              / (min 64 (if it.stack_size = 0 then (64 : ℚ)
                  else (it.stack_size : ℚ)))).sum
      + min 1 ((items.length : ℚ))⌋

theorem fillQ_eq_spec (it : Slot) :
    fillQ (jsOr1 it.quantity, it.stack_size)
      = (match it.quantity with
          | none => (1 : ℚ)
          | some q => if q = 0 then 1 else (q : ℚ))
          / (min 64 (if it.stack_size = 0 then (64 : ℚ)
              else (it.stack_size : ℚ))) := by
  have hq : ((jsOr1 it.quantity : ℕ) : ℚ)
      = (match it.quantity with
          | none => (1 : ℚ)
          | some q => if q = 0 then 1 else (q : ℚ)) := by
    unfold jsOr1
    match it.quantity with
    | none => norm_num
    | some q =>
      by_cases h : q = 0 <;> simp [h]
  have hl : ((jsLimit it.stack_size : ℕ) : ℚ)
      = min 64 (if it.stack_size = 0 then (64 : ℚ)
          else (it.stack_size : ℚ)) := by
    unfold jsLimit
    push_cast
    by_cases h : it.stack_size = 0 <;> simp [h]
  unfold fillQ
  rw [show ((jsOr1 it.quantity, it.stack_size) : ℕ × ℕ).1 = jsOr1 it.quantity from rfl]
  rw [show ((jsOr1 it.quantity, it.stack_size) : ℕ × ℕ).2 = it.stack_size from rfl]
  rw [hq, hl]

theorem calculateSignalStrength_eq_spec (slots : List (Option Slot)) :
    (calculateSignalStrength slots : ℤ) = specSignal slots := by
  unfold calculateSignalStrength specSignal
  set items := slots.filterMap fun x => x with hitems
  by_cases h : items.length = 0
  · have : ((items.map fun it => (jsOr1 it.quantity, it.stack_size))) = [] := by
      simp [List.length_eq_zero.mp h]
    rw [this]
    simp [h, signalOfPairs]
  · have hne : (items.map fun it => (jsOr1 it.quantity, it.stack_size)) ≠ [] := by
      intro hc
      apply h
      simpa using congrArg List.length hc
    rw [if_neg h]
    rw [signalOfPairs_eq _ hne]
    have hmin : min 1 ((items.length : ℚ)) = 1 := by
      have : (1 : ℚ) ≤ (items.length : ℚ) := by
        have : 1 ≤ items.length := Nat.one_le_iff_ne_zero.mpr h
        exact_mod_cast this
      exact min_eq_left this
    rw [hmin]
    unfold fillSumQ
    rw [List.map_map]
    have hmap : List.map (fillQ ∘ fun it => (jsOr1 it.quantity, it.stack_size)) items
        = List.map (fun it =>
            (match it.quantity with
              | none => (1 : ℚ)
              | some q => if q = 0 then 1 else (q : ℚ)) /
              (min 64 (if it.stack_size = 0 then (64 : ℚ)
                else (it.stack_size : ℚ)))) items := by
      apply List.map_congr_left
      intro it _
      simp only [Function.comp_apply]
      exact fillQ_eq_spec it
    rw [hmap]

/-- Unstackable test item of the repository test suite: empty identifier,
stack size 1, empty rarity, quantity 1. -/
def testUnstackable : Slot :=
  { id := "", stack_size := 1, rarity := "", quantity := some 1,
    originalIndex := none, forceAdjusted := none, isAdjusted := none,
    isDuplicate := false }

/-- C4: calculateSignalStrength computes
floor((14/54) * fillSum + min(1, itemCount)) with fillSum the sum over
occupied slots of quantity / min(64, stack limit or 64), returns 0 on an
empty container, and matches the boundary table on containers of n
unstackable quantity-1 items for
n = 0, 1, 2, 3, 4, 50, 51, 52, 53, 54. -/
theorem C4_scorer_formula_and_boundary :
    (∀ slots, (calculateSignalStrength slots : ℤ) = specSignal slots)
      ∧ (∀ slots, (∀ os ∈ slots, os = none) →
          calculateSignalStrength slots = 0)
      ∧ (List.map
          (fun n => calculateSignalStrength
            (List.replicate n (some testUnstackable)))
          [0, 1, 2, 3, 4, 50, 51, 52, 53, 54]
          = [0, 1, 1, 1, 2, 13, 14, 14, 14, 15]) := by
  refine ⟨calculateSignalStrength_eq_spec, ?_, by decide⟩
  intro slots h
  unfold calculateSignalStrength
  have : slots.filterMap (fun x => x) = [] := by
    rw [List.filterMap_eq_nil_iff]
    intro a ha
    exact h a ha
  rw [this]
  rfl

/-- Witness for C4: the all-empty 54-slot container satisfies the emptiness
hypothesis and scores 0. -/
theorem C4_witness :
    calculateSignalStrength (List.replicate 54 (none : Option Slot)) = 0 :=
  C4_scorer_formula_and_boundary.2.1 (List.replicate 54 none) (by simp)

/-- Plain catalog item with a given identifier and stack size, quantity 1,
no optimizer markers; used for concrete containers. -/
def plainItem (i : String) (st : Nat) : Slot :=
  { id := i, stack_size := st, rarity := "", quantity := some 1,
    originalIndex := none, forceAdjusted := none, isAdjusted := none,
    isDuplicate := false }

/-- Container showing the classification fallback firing although a slot
qualifies under the duplicate rule: two copies of item a and one singleton
item b, all quantity 1. -/
def c7slots : List (Option Slot) :=
  none :: some (plainItem "a" 1) :: some (plainItem "a" 1)
    :: some (plainItem "b" 1) :: List.replicate 50 none

/-- Occupied slots survive Option.map with the mapped item. -/
theorem occList_map (g : WSlot → WSlot) (w : List (Option WSlot)) :
    occList (w.map (Option.map g)) = (occList w).map g := by
  unfold occList
  rw [List.filterMap_map, List.map_filterMap]
  rfl

/-- Quantity check is unchanged by per-item maps that keep the quantity. -/
theorem hasQuantityAdjustments_map (g : WSlot → WSlot)
    (hg : ∀ it, (g it).quantity = it.quantity) (w : List (Option WSlot)) :
    hasQuantityAdjustments (w.map (Option.map g))
      = hasQuantityAdjustments w := by
  unfold hasQuantityAdjustments
  rw [List.any_map]
  have hfun : ((fun os => match os with
        | some it => decide (1 < it.quantity)
        | none => false) ∘ Option.map g)
      = fun os => match os with
        | some it => decide (1 < it.quantity)
        | none => false := by
    funext os
    cases os with
    | none => rfl
    | some it => simp [Function.comp_apply, hg]
  rw [hfun]

/-- Quantity check is unchanged by classification. -/
theorem hasQuantityAdjustments_classify (w : List (Option WSlot)) :
    hasQuantityAdjustments (classifySlots w) = hasQuantityAdjustments w := by
  unfold classifySlots
  exact hasQuantityAdjustments_map
    (fun it => { it with forceAdjusted := (decide (1 < it.quantity) || decide (1 < countId w it.id)) })
    (fun it => rfl) w

/-- C7 counterexample: in the candidate state of the container c7slots, the
slot holding item b is a candidate although its quantity is 1 and no other
occupied slot holds its identifier, refuting the stated only-if direction;
and the fallback fired even though the slots holding item a qualify under
the stated rule, refuting the stated fallback condition. -/
theorem C7_counterexample :
    (match ((mkCtx c7slots).start).getD 3 none with
      | some it =>
          it.forceAdjusted
            && !(decide (1 < it.quantity)
              || decide (1 < countId (normalizeSlots c7slots) it.id))
      | none => false) = true
    ∧ (∃ jt, (some jt) ∈ normalizeSlots c7slots
        ∧ 1 < countId (normalizeSlots c7slots) jt.id) := by
  constructor
  · decide
  · exact ⟨normalizeSlot 1 (plainItem "a" 1), by decide, by decide⟩

/-- C7 amended: an occupied slot of the candidate state is a candidate if
and only if its quantity exceeds 1, or another occupied slot holds the same
identifier, or no occupied slot anywhere has quantity above 1; and the
fallback condition is exactly the absence of any quantity above 1, not the
absence of qualifying slots. -/
theorem C7_amended (slots : List (Option Slot)) :
    (∀ it, (some it) ∈ (mkCtx slots).start →
      (it.forceAdjusted = true ↔
        (1 < it.quantity ∨ 1 < countId (normalizeSlots slots) it.id
          ∨ hasQuantityAdjustments (classifySlots (normalizeSlots slots))
              = false)))
    ∧ (hasQuantityAdjustments (classifySlots (normalizeSlots slots)) = false
        ↔ ∀ jt, (some jt) ∈ normalizeSlots slots → jt.quantity ≤ 1) := by
  constructor
  · intro it hmem
    have hstart : (mkCtx slots).start
        = (if hasQuantityAdjustments (classifySlots (normalizeSlots slots))
            then classifySlots (normalizeSlots slots)
            else markAllForced (classifySlots (normalizeSlots slots))) := rfl
    rw [hstart] at hmem
    by_cases hq : hasQuantityAdjustments (classifySlots (normalizeSlots slots))
    · rw [if_pos hq] at hmem
      unfold classifySlots at hmem
      rw [List.mem_map] at hmem
      obtain ⟨os, hos, hmap⟩ := hmem
      cases os with
      | none => exact absurd hmap (by simp)
      | some it0 =>
        have hit : it = { it0 with forceAdjusted := (decide (1 < it0.quantity) || decide (1 < countId (normalizeSlots slots) it0.id)) } := by
          have := hmap
          simp only [Option.map_some] at this
          exact (Option.some_injective _ this).symm
        subst hit
        simp only [Bool.or_eq_true, decide_eq_true_eq]
        constructor
        · intro h
          rcases h with h | h
          · exact Or.inl h
          · exact Or.inr (Or.inl h)
        · intro h
          rcases h with h | h | h
          · exact Or.inl h
          · exact Or.inr h
          · rw [hq] at h
            exact Bool.noConfusion h
    · rw [if_neg hq] at hmem
      unfold markAllForced at hmem
      rw [List.mem_map] at hmem
      obtain ⟨os, hos, hmap⟩ := hmem
      cases os with
      | none => exact absurd hmap (by simp)
      | some it0 =>
        have hit : it = { it0 with forceAdjusted := true } := by
          have := hmap
          simp only [Option.map_some] at this
          exact (Option.some_injective _ this).symm
        subst hit
        simp only [true_iff]
        exact Or.inr (Or.inr (Bool.eq_false_iff.mpr hq))
  · rw [hasQuantityAdjustments_classify]
    unfold hasQuantityAdjustments
    constructor
    · intro h jt hjt
      have := List.any_eq_false.mp h _ hjt
      simpa using this
    · intro h
      rw [List.any_eq_false]
      intro os hos
      cases os with
      | none => simp
      | some jt =>
        simp only [decide_eq_true_eq, not_lt]
        exact h jt hos

/-- Slot value of item b in the candidate state of c7slots. -/
def c7bSlot : WSlot :=
  { id := "b", stack_size := 1, rarity := "", quantity := 1,
    originalIndex := 3, forceAdjusted := true, isAdjusted := none,
    isDuplicate := false }

/-- Witness for C7: the amended characterization evaluated on the concrete
container c7slots at the slot holding item b. -/
theorem C7_amended_witness :
    ((some c7bSlot) ∈ (mkCtx c7slots).start)
    ∧ (c7bSlot.forceAdjusted = true ↔
        (1 < c7bSlot.quantity
          ∨ 1 < countId (normalizeSlots c7slots) c7bSlot.id
          ∨ hasQuantityAdjustments (classifySlots (normalizeSlots c7slots))
              = false)) :=
  ⟨by decide, (C7_amended c7slots).1 c7bSlot (by decide)⟩

/-- Container reaching the gap-filling duplication step with mixed stack
classes: 52 distinct singleton unstackables followed by one 16-stackable,
occupying all 53 usable slots, everything at quantity 1 and common rarity. -/
def c8slots : List (Option Slot) :=
  none :: (((List.range 52).map fun k => some (plainItem (toString k) 1))
    ++ [some (plainItem "big" 16)])

set_option maxHeartbeats 4000000 in
set_option maxRecDepth 100000 in
/-- C8: on c8slots the gap-filling duplication step runs (guard and maxed
check both hold), a candidate with stack limit 16 exists, all candidates
share the common rarity rank, and yet the chosen item has stack limit 1:
the reduce keeps the first candidate because it demands both a stack size
at least as large and a strictly lower rarity to replace, contradicting
the stated preference for the largest stack limit with rarity only as a
tie-break. -/
theorem C8_choice_not_largest_stack :
    (stage4Guard (mkCtx c8slots)
      && allMaxedCheck (stage3 (mkCtx c8slots)).1
      && ((stage4Candidates (mkCtx c8slots)).any fun it =>
            it.stack_size == 16)
      && ((stage4Candidates (mkCtx c8slots)).all fun it =>
            getRarityOrder it.rarity == 0)
      && (match stage4Choice (mkCtx c8slots) with
          | some t => t.stack_size == 1
          | none => false)) = true := by
  decide

/-- Fill fraction contributed by one working slot. -/
def fillW (it : WSlot) : ℚ :=
  fillQ (jsOr1 (some it.quantity), it.stack_size)

/-- Rational fill sum of a working container. -/
def fillSumW (w : List (Option WSlot)) : ℚ :=
  ((occList w).map fillW).sum

/-- Number of occupied slots. -/
def occCount (w : List (Option WSlot)) : Nat :=
  (occList w).length

theorem fillW_pos (it : WSlot) : 0 < fillW it := by
  unfold fillW fillQ
  apply div_pos
  · exact_mod_cast jsOr1_pos (some it.quantity)
  · exact_mod_cast jsLimit_pos it.stack_size

theorem calcW_eq_signal (w : List (Option WSlot)) :
    calcW w = signalOfPairs ((occList w).map
      fun it => (jsOr1 (some it.quantity), it.stack_size)) := rfl

theorem calcW_of_occ_nil (w : List (Option WSlot)) (h : occList w = []) :
    calcW w = 0 := by
  rw [calcW_eq_signal, h]
  rfl

theorem calcW_cast (w : List (Option WSlot)) (h : occList w ≠ []) :
    (calcW w : ℤ) = ⌊(14 / 54 : ℚ) * fillSumW w + 1⌋ := by
  rw [calcW_eq_signal]
  rw [signalOfPairs_eq _ (by simpa using h)]
  congr 2
  unfold fillSumQ fillSumW
  rw [List.map_map]
  rfl

theorem lt_calcW_iff (w : List (Option WSlot)) (h : occList w ≠ [])
    (cur : Nat) :
    cur < calcW w ↔ ((cur : ℚ)) ≤ (14 / 54 : ℚ) * fillSumW w := by
  have hcast : (calcW w : ℤ) = ⌊(14 / 54 : ℚ) * fillSumW w + 1⌋ :=
    calcW_cast w h
  constructor
  · intro hlt
    have h1 : ((cur : ℤ)) + 1 ≤ (calcW w : ℤ) := by exact_mod_cast hlt
    rw [hcast] at h1
    have := Int.le_floor.mp h1
    push_cast at this
    linarith
  · intro hle
    have h1 : ((cur : ℤ)) + 1 ≤ ⌊(14 / 54 : ℚ) * fillSumW w + 1⌋ := by
      rw [Int.le_floor]
      push_cast
      linarith
    rw [← hcast] at h1
    exact_mod_cast h1

theorem calcW_le_iff (w : List (Option WSlot)) (h : occList w ≠ [])
    (cur : Nat) :
    calcW w ≤ cur ↔ (14 / 54 : ℚ) * fillSumW w < ((cur : ℚ)) := by
  rw [← Nat.not_lt, lt_calcW_iff w h cur, not_le]

theorem calcW_mono (w w2 : List (Option WSlot))
    (hocc : occList w ≠ [] → occList w2 ≠ [])
    (hfill : fillSumW w ≤ fillSumW w2) :
    calcW w ≤ calcW w2 := by
  by_cases h : occList w = []
  · rw [calcW_of_occ_nil w h]
    exact Nat.zero_le _
  · have h2 := hocc h
    have e1 := calcW_cast w h
    have e2 := calcW_cast w2 h2
    have hf : (14 / 54 : ℚ) * fillSumW w + 1
        ≤ (14 / 54 : ℚ) * fillSumW w2 + 1 := by
      have : (14 / 54 : ℚ) * fillSumW w ≤ (14 / 54 : ℚ) * fillSumW w2 :=
        mul_le_mul_of_nonneg_left hfill (by norm_num)
      linarith
    have hfl := Int.floor_le_floor hf
    rw [← e1, ← e2] at hfl
    exact_mod_cast hfl

theorem occList_set_some_of_none (w : List (Option WSlot)) (i : Nat)
    (x : WSlot) (h : w[i]? = some none) :
    fillSumW (w.set i (some x)) = fillSumW w + fillW x
      ∧ occCount (w.set i (some x)) = occCount w + 1 := by
  induction w generalizing i with
  | nil => simp at h
  | cons os rest ih =>
    cases i with
    | zero =>
      simp only [List.getElem?_cons_zero, Option.some_inj] at h
      subst h
      simp [fillSumW, occCount, occList, List.set]
      ring
    | succ j =>
      simp only [List.getElem?_cons_succ] at h
      obtain ⟨h1, h2⟩ := ih j h
      cases os with
      | none =>
        simpa [fillSumW, occCount, occList, List.set] using And.intro h1 h2
      | some y =>
        simp only [fillSumW, occCount, occList, List.set, List.filterMap_cons,
          List.map_cons, List.sum_cons, List.length_cons] at *
        constructor
        · rw [h1]; ring
        · omega

theorem occList_set_some_of_some (w : List (Option WSlot)) (i : Nat)
    (x y : WSlot) (h : w[i]? = some (some y)) :
    fillSumW (w.set i (some x)) + fillW y = fillSumW w + fillW x
      ∧ occCount (w.set i (some x)) = occCount w := by
  induction w generalizing i with
  | nil => simp at h
  | cons os rest ih =>
    cases i with
    | zero =>
      simp only [List.getElem?_cons_zero, Option.some_inj] at h
      subst h
      simp [fillSumW, occCount, occList, List.set]
      ring
    | succ j =>
      simp only [List.getElem?_cons_succ] at h
      obtain ⟨h1, h2⟩ := ih j h
      cases os with
      | none =>
        simpa [fillSumW, occCount, occList, List.set] using And.intro h1 h2
      | some z =>
        simp only [fillSumW, occCount, occList, List.set, List.filterMap_cons,
          List.map_cons, List.sum_cons, List.length_cons] at *
        constructor
        · have := h1
          linarith
        · omega

theorem occList_ne_nil_iff (w : List (Option WSlot)) :
    occList w ≠ [] ↔ 0 < occCount w := by
  unfold occCount
  constructor
  · intro h
    exact List.length_pos.mpr h
  · intro h
    exact List.length_pos.mp h

theorem countId_set_none (w : List (Option WSlot)) (i : Nat) (x : WSlot)
    (s : String) (h : w[i]? = some none) :
    countId (w.set i (some x)) s
      = countId w s + (if x.id == s then 1 else 0) := by
  induction w generalizing i with
  | nil => simp at h
  | cons os rest ih =>
    cases i with
    | zero =>
      simp only [List.getElem?_cons_zero, Option.some_inj] at h
      subst h
      simp [countId, occList, List.set, List.countP_cons]
    | succ j =>
      simp only [List.getElem?_cons_succ] at h
      have h1 := ih j h
      cases os with
      | none =>
        simpa [countId, occList, List.set] using h1
      | some z =>
        simp only [countId, occList, List.set, List.filterMap_cons,
          List.countP_cons] at *
        omega

theorem countId_set_some (w : List (Option WSlot)) (i : Nat) (x y : WSlot)
    (s : String) (h : w[i]? = some (some y)) :
    countId (w.set i (some x)) s + (if y.id == s then 1 else 0)
      = countId w s + (if x.id == s then 1 else 0) := by
  induction w generalizing i with
  | nil => simp at h
  | cons os rest ih =>
    cases i with
    | zero =>
      simp only [List.getElem?_cons_zero, Option.some_inj] at h
      subst h
      simp only [countId, occList, List.set, List.filterMap_cons,
        List.countP_cons]
      omega
    | succ j =>
      simp only [List.getElem?_cons_succ] at h
      have h1 := ih j h
      cases os with
      | none =>
        simpa [countId, occList, List.set] using h1
      | some z =>
        simp only [countId, occList, List.set, List.filterMap_cons,
          List.countP_cons] at *
        omega

theorem getD_some_iff (w : List (Option WSlot)) (i : Nat) (it : WSlot) :
    w.getD i none = some it ↔ w[i]? = some (some it) := by
  rw [List.getD_eq_getElem?_getD]
  match hw : w[i]? with
  | none => simp
  | some none => simp
  | some (some z) => simp

theorem jsOr1_mono (q q2 : Nat) (h : q ≤ q2) :
    jsOr1 (some q) ≤ jsOr1 (some q2) := by
  unfold jsOr1
  dsimp only
  by_cases h0 : q = 0
  · rw [if_pos h0]
    by_cases h2 : q2 = 0
    · rw [if_pos h2]
    · rw [if_neg h2]
      omega
  · rw [if_neg h0, if_neg (by omega)]
    exact h

theorem fillW_qty_mono (it : WSlot) (q q2 : Nat) (h : q ≤ q2) :
    fillW { it with quantity := q } ≤ fillW { it with quantity := q2 } := by
  have hL : (0 : ℚ) < ((jsLimit it.stack_size : ℕ) : ℚ) := by
    exact_mod_cast jsLimit_pos it.stack_size
  have hq : ((jsOr1 (some q) : ℕ) : ℚ) ≤ ((jsOr1 (some q2) : ℕ) : ℚ) := by
    exact_mod_cast jsOr1_mono q q2 h
  unfold fillW fillQ
  dsimp only
  exact (div_le_div_iff_of_pos_right hL).mpr hq

theorem fillW_set_qty (it : WSlot) :
    { it with quantity := it.quantity } = it := rfl

theorem incUntil_succ (limit cur i fuel : Nat) (w : List (Option WSlot)) :
    incUntil limit cur i (fuel + 1) w =
      match w.getD i none with
      | none => (w, false)
      | some it =>
        if it.quantity < limit then
          if cur < calcW (w.set i
              (some { it with quantity := it.quantity + 1 })) then (w, true)
          else incUntil limit cur i fuel
            (w.set i (some { it with quantity := it.quantity + 1 }))
        else (w, false) := rfl

/-- Full description of the inner increment loop: positions other than the
target are untouched, the target keeps all fields except a quantity that
only grows and stays within max(old, limit), the signal stays at cur, the
fill sum only grows, occupancy and identifier counts are unchanged; a true
flag reports an undone increment that would have raised the signal, a false
flag with enough fuel means the limit was reached. -/
theorem incUntil_spec (limit cur i : Nat) (fuel : Nat)
    (w : List (Option WSlot))
    (hocc : occList w ≠ []) (hcal : calcW w = cur)
    (hfuel : ∀ it, w[i]? = some (some it) → limit ≤ it.quantity + fuel) :
    (incUntil limit cur i fuel w).1.length = w.length
    ∧ (∀ j, j ≠ i → ((incUntil limit cur i fuel w).1)[j]? = w[j]?)
    ∧ (∀ it, w[i]? = some (some it) →
        ∃ q, ((incUntil limit cur i fuel w).1)[i]?
            = some (some { it with quantity := q })
          ∧ it.quantity ≤ q ∧ q ≤ max it.quantity limit)
    ∧ (w.getD i none = none → incUntil limit cur i fuel w = (w, false))
    ∧ calcW (incUntil limit cur i fuel w).1 = cur
    ∧ fillSumW w ≤ fillSumW (incUntil limit cur i fuel w).1
    ∧ occCount (incUntil limit cur i fuel w).1 = occCount w
    ∧ (∀ s, countId (incUntil limit cur i fuel w).1 s = countId w s)
    ∧ ((incUntil limit cur i fuel w).2 = true →
        ∃ it, ((incUntil limit cur i fuel w).1)[i]? = some (some it)
          ∧ it.quantity < limit
          ∧ cur < calcW ((incUntil limit cur i fuel w).1.set i
              (some { it with quantity := it.quantity + 1 })))
    ∧ ((incUntil limit cur i fuel w).2 = false →
        ∀ it, ((incUntil limit cur i fuel w).1)[i]? = some (some it) →
          limit ≤ it.quantity) := by
  induction fuel generalizing w with
  | zero =>
    unfold incUntil
    refine ⟨rfl, fun j _ => rfl, ?_, fun _ => rfl, hcal, le_refl _, rfl,
      fun s => rfl, ?_, ?_⟩
    · intro it hit
      exact ⟨it.quantity, by rw [hit, fillW_set_qty], le_refl _,
        le_max_left _ _⟩
    · intro h
      exact absurd h (by simp)
    · intro _ it hit
      have := hfuel it hit
      omega
  | succ fuel ih =>
    match hgd : w.getD i none with
    | none =>
      have hne : ∀ it, ¬ w[i]? = some (some it) := by
        intro it hit
        rw [(getD_some_iff w i it).mpr hit] at hgd
        exact Option.noConfusion hgd
      unfold incUntil
      rw [hgd]
      refine ⟨rfl, fun j _ => rfl, ?_, fun _ => rfl, hcal, le_refl _, rfl,
        fun s => rfl, ?_, ?_⟩
      · intro it hit
        exact absurd hit (hne it)
      · intro h
        exact absurd h (by simp)
      · intro _ it hit
        exact absurd hit (hne it)
    | some it =>
      have hit : w[i]? = some (some it) := (getD_some_iff w i it).mp hgd
      have hi : i < w.length := by
        rcases List.getElem?_eq_some_iff.mp hit with ⟨h, _⟩
        exact h
      by_cases hql : it.quantity < limit
      · set it2 : WSlot := { it with quantity := it.quantity + 1 } with hit2
        set w2 := w.set i (some it2) with hw2
        have hw2i : w2[i]? = some (some it2) :=
          List.getElem?_set_self hi
        have hset := occList_set_some_of_some w i it2 it hit
        have hfill2 : fillSumW w ≤ fillSumW w2 := by
          have hm : fillW it ≤ fillW it2 := by
            have := fillW_qty_mono it it.quantity (it.quantity + 1)
              (Nat.le_succ _)
            rwa [fillW_set_qty] at this
          have := hset.1
          linarith
        have hocc2 : occList w2 ≠ [] := by
          rw [occList_ne_nil_iff] at *
          rw [hset.2]
          exact hocc
        by_cases hbr : cur < calcW w2
        · have hres : incUntil limit cur i (fuel + 1) w = (w, true) := by
            rw [incUntil_succ, hgd]
            dsimp only
            rw [if_pos hql]
            rw [if_pos (show cur < calcW (w.set i
              (some { it with quantity := it.quantity + 1 })) from hbr)]
          rw [hres]
          refine ⟨rfl, fun j _ => rfl, ?_, ?_, hcal, le_refl _, rfl,
            fun s => rfl, ?_, ?_⟩
          · intro it0 hit0
            exact ⟨it0.quantity, by rw [hit0, fillW_set_qty], le_refl _,
              le_max_left _ _⟩
          · intro h
            exact Option.noConfusion h
          · intro _
            exact ⟨it, hit, hql, hbr⟩
          · intro h
            exact absurd h (by simp)
        · have hcal2 : calcW w2 = cur := by
            have hle : calcW w2 ≤ cur := by omega
            have hge : cur ≤ calcW w2 := by
              rw [← hcal]
              exact calcW_mono w w2 (fun _ => hocc2) hfill2
            omega
          have hfuel2 : ∀ jt, w2[i]? = some (some jt) →
              limit ≤ jt.quantity + fuel := by
            intro jt hjt
            rw [hw2i] at hjt
            have hj2 : jt = it2 :=
              (Option.some_injective _ (Option.some_injective _ hjt)).symm
            subst hj2
            have := hfuel it hit
            simp only [hit2]
            omega
          have hres : incUntil limit cur i (fuel + 1) w
              = incUntil limit cur i fuel w2 := by
            rw [incUntil_succ, hgd]
            dsimp only
            rw [if_pos hql]
            rw [if_neg (show ¬ cur < calcW (w.set i
              (some { it with quantity := it.quantity + 1 })) from hbr)]
          obtain ⟨ih1, ih2, ih3, ih4, ih5, ih6, ih7, ih8, ih9, ih10⟩ :=
            ih w2 hocc2 hcal2 hfuel2
          rw [hres]
          refine ⟨by rw [ih1, hw2, List.length_set], ?_, ?_, ?_, ih5,
            le_trans hfill2 ih6, ?_, ?_, ih9, ih10⟩
          · intro j hj
            rw [ih2 j hj, hw2, List.getElem?_set_ne (fun hc => hj hc.symm)]
          · intro it0 hit0
            have hsame : it = it0 := by
              rw [hit] at hit0
              exact Option.some_injective _ (Option.some_injective _ hit0)
            subst hsame
            obtain ⟨q, hq1, hq2, hq3⟩ := ih3 it2 hw2i
            refine ⟨q, ?_, ?_, ?_⟩
            · rw [hq1]
            · simp only [hit2] at hq2
              omega
            · simp only [hit2] at hq3
              rcases max_cases (it.quantity + 1) limit with ⟨hm, _⟩ | ⟨hm, _⟩
              · rw [hm] at hq3
                have : q ≤ max it.quantity limit := by
                  rcases Nat.le_total q limit with hx | hx
                  · exact le_trans hx (le_max_right _ _)
                  · omega
                exact this
              · rw [hm] at hq3
                exact le_trans hq3 (le_max_right _ _)
          · intro h
            exact Option.noConfusion h
          · rw [ih7, hw2]
            exact (occList_set_some_of_some w i it2 it hit).2
          · intro s
            rw [ih8 s, hw2]
            have := countId_set_some w i it2 it s hit
            have hid : it2.id = it.id := rfl
            rw [hid] at this
            omega
      · have hres : incUntil limit cur i (fuel + 1) w = (w, false) := by
          rw [incUntil_succ, hgd]
          dsimp only
          rw [if_neg hql]
        rw [hres]
        refine ⟨rfl, fun j _ => rfl, ?_, fun _ => rfl, hcal, le_refl _, rfl,
          fun s => rfl, ?_, ?_⟩
        · intro it0 hit0
          exact ⟨it0.quantity, by rw [hit0, fillW_set_qty], le_refl _,
            le_max_left _ _⟩
        · intro h
          exact absurd h (by simp)
        · intro _ it0 hit0
          have heq0 : it = it0 := by
            rw [hit] at hit0
            exact Option.some_injective _ (Option.some_injective _ hit0)
          subst heq0
          omega

theorem set_self_of_getElem (w : List (Option WSlot)) (i : Nat)
    (os : Option WSlot) (h : w[i]? = some os) : w.set i os = w := by
  induction w generalizing i with
  | nil => simp at h
  | cons a rest ih =>
    cases i with
    | zero =>
      simp only [List.getElem?_cons_zero, Option.some_inj] at h
      rw [List.set_cons_zero, h]
    | succ j =>
      simp only [List.getElem?_cons_succ] at h
      rw [List.set_cons_succ, ih j h]

theorem fillSumW_set_none (w : List (Option WSlot)) (i : Nat) (it : WSlot)
    (h : w[i]? = some (some it)) :
    fillSumW (w.set i none) + fillW it = fillSumW w
      ∧ occCount (w.set i none) + 1 = occCount w := by
  induction w generalizing i with
  | nil => simp at h
  | cons os rest ih =>
    cases i with
    | zero =>
      simp only [List.getElem?_cons_zero, Option.some_inj] at h
      subst h
      simp [fillSumW, occCount, occList, List.set]
      ring
    | succ j =>
      simp only [List.getElem?_cons_succ] at h
      obtain ⟨h1, h2⟩ := ih j h
      cases os with
      | none =>
        simpa [fillSumW, occCount, occList, List.set] using And.intro h1 h2
      | some z =>
        simp only [fillSumW, occCount, occList, List.set, List.filterMap_cons,
          List.map_cons, List.sum_cons, List.length_cons] at *
        constructor
        · linarith
        · omega

/-- Fill sum of the container with position i emptied, as an exact unreduced
fraction; used to score repeated quantity updates at position i without
rescanning the container. -/
def restPair (w : List (Option WSlot)) (i : Nat) : Nat × Nat :=
  ((((w.set i none).filterMap fun x => x).map
    fun it => (jsOr1 (some it.quantity), it.stack_size))).foldl fillStep (0, 1)

/-- Signal of the container whose fill sum is rest plus eff / L, with at
least one occupied slot. -/
def scoreAt (rest : Nat × Nat) (L eff : Nat) : Nat :=
  (14 * (rest.1 * L + eff * rest.2) + 54 * (rest.2 * L)) / (54 * (rest.2 * L))

theorem occList_ne_nil_of_getElem (w : List (Option WSlot)) (i : Nat)
    (it : WSlot) (h : w[i]? = some (some it)) : occList w ≠ [] := by
  rcases List.getElem?_eq_some_iff.mp h with ⟨hi, hg⟩
  have : some it ∈ w := by
    rw [← hg]
    exact List.getElem_mem hi
  intro hc
  have : it ∈ occList w := by
    unfold occList
    rw [List.mem_filterMap]
    exact ⟨some it, this, rfl⟩
  rw [hc] at this
  exact List.not_mem_nil it this

theorem scoreAt_cast (p d L eff : Nat) (hd : 0 < d) (hL : 0 < L) :
    ((scoreAt (p, d) L eff : Nat) : ℤ)
      = ⌊(14 / 54 : ℚ) * ((p : ℚ) / (d : ℚ) + (eff : ℚ) / (L : ℚ)) + 1⌋ := by
  unfold scoreAt
  rw [nat_div_eq_floor]
  congr 1
  have hdq : ((d : ℕ) : ℚ) ≠ 0 := by exact_mod_cast Nat.pos_iff_ne_zero.mp hd
  have hLq : ((L : ℕ) : ℚ) ≠ 0 := by exact_mod_cast Nat.pos_iff_ne_zero.mp hL
  push_cast
  field_simp

theorem fillSumW_eq_fillSumQ (w : List (Option WSlot)) :
    fillSumQ ((w.filterMap fun x => x).map
      fun it => (jsOr1 (some it.quantity), it.stack_size))
      = fillSumW w := by
  unfold fillSumQ fillSumW occList
  rw [List.map_map]
  rfl

theorem calcW_set_eq_scoreAt (w : List (Option WSlot)) (i : Nat) (it : WSlot)
    (h : w[i]? = some (some it)) (q : Nat) :
    calcW (w.set i (some { it with quantity := q }))
      = scoreAt (restPair w i) (jsLimit it.stack_size) (jsOr1 (some q)) := by
  have hi : i < w.length := by
    rcases List.getElem?_eq_some_iff.mp h with ⟨hj, _⟩
    exact hj
  have hnone : (w.set i none)[i]? = some none :=
    List.getElem?_set_self hi
  have hsets : (w.set i none).set i (some { it with quantity := q })
      = w.set i (some { it with quantity := q }) := by
    rw [List.set_set]
  have hxset : (w.set i (some { it with quantity := q }))[i]?
      = some (some { it with quantity := q }) := List.getElem?_set_self hi
  have hocc : occList (w.set i (some { it with quantity := q })) ≠ [] :=
    occList_ne_nil_of_getElem _ i _ hxset
  have hfill : fillSumW (w.set i (some { it with quantity := q }))
      = fillSumW (w.set i none) + fillW { it with quantity := q } := by
    rw [← hsets]
    exact (occList_set_some_of_none (w.set i none) i _ hnone).1
  obtain ⟨hdpos, hval⟩ := foldl_fillStep_spec
    (((w.set i none).filterMap fun x => x).map
      fun jt => (jsOr1 (some jt.quantity), jt.stack_size)) (0, 1) Nat.one_pos
  have hrest1 : ((restPair w i).1 : ℚ) / ((restPair w i).2 : ℚ)
      = fillSumW (w.set i none) := by
    unfold restPair
    rw [hval]
    rw [fillSumW_eq_fillSumQ (w.set i none)]
    push_cast
    ring
  have hLpos : 0 < jsLimit it.stack_size := jsLimit_pos it.stack_size
  have hcastL : (calcW (w.set i (some { it with quantity := q })) : ℤ)
      = ⌊(14 / 54 : ℚ) * (fillSumW (w.set i none)
          + fillW { it with quantity := q }) + 1⌋ := by
    rw [calcW_cast _ hocc, hfill]
  have hfx : fillW { it with quantity := q }
      = ((jsOr1 (some q) : ℕ) : ℚ) / ((jsLimit it.stack_size : ℕ) : ℚ) := rfl
  have hcastR : ((scoreAt (restPair w i) (jsLimit it.stack_size)
        (jsOr1 (some q)) : Nat) : ℤ)
      = ⌊(14 / 54 : ℚ) * (fillSumW (w.set i none)
          + fillW { it with quantity := q }) + 1⌋ := by
    have := scoreAt_cast (restPair w i).1 (restPair w i).2
      (jsLimit it.stack_size) (jsOr1 (some q)) hdpos hLpos
    rw [show ((restPair w i).1, (restPair w i).2) = restPair w i from rfl]
      at this
    rw [this, hrest1, hfx]
  have : (calcW (w.set i (some { it with quantity := q })) : ℤ)
      = ((scoreAt (restPair w i) (jsLimit it.stack_size)
          (jsOr1 (some q)) : Nat) : ℤ) := by
    rw [hcastL, hcastR]
  exact_mod_cast this

/-- Quantity-only form of the inner increment loop: the container minus the
target position is summarized by rest, so each trial is one arithmetic
comparison. -/
def incFastQ (limit cur : Nat) (rest : Nat × Nat) (L : Nat) :
    Nat → Nat → Nat × Bool
  | 0, q => (q, false)
  | fuel + 1, q =>
    if q < limit then
      if cur < scoreAt rest L (jsOr1 (some (q + 1))) then (q, true)
      else incFastQ limit cur rest L fuel (q + 1)
    else (q, false)

/-- Fast form of the inner increment loop, equal to incUntil. -/
def incUntilFast (limit cur i : Nat) (fuel : Nat)
    (w : List (Option WSlot)) : List (Option WSlot) × Bool :=
  match w.getD i none with
  | none => (w, false)
  | some it =>
    let r := incFastQ limit cur (restPair w i) (jsLimit it.stack_size)
      fuel it.quantity
    (w.set i (some { it with quantity := r.1 }), r.2)

theorem incUntil_eq_fast (limit cur i : Nat) (fuel : Nat)
    (w : List (Option WSlot)) :
    incUntil limit cur i fuel w = incUntilFast limit cur i fuel w := by
  induction fuel generalizing w with
  | zero =>
    unfold incUntil incUntilFast
    match hgd : w.getD i none with
    | none => rfl
    | some it =>
      have hit : w[i]? = some (some it) := (getD_some_iff w i it).mp hgd
      unfold incFastQ
      dsimp only
      rw [set_self_of_getElem w i (some it) hit]
  | succ fuel ih =>
    rw [incUntil_succ]
    unfold incUntilFast
    match hgd : w.getD i none with
    | none => rfl
    | some it =>
      have hit : w[i]? = some (some it) := (getD_some_iff w i it).mp hgd
      have hsc := calcW_set_eq_scoreAt w i it hit (it.quantity + 1)
      unfold incFastQ
      dsimp only
      by_cases hql : it.quantity < limit
      · rw [if_pos hql, if_pos hql]
        by_cases hbr : cur < calcW (w.set i
            (some { it with quantity := it.quantity + 1 }))
        · rw [if_pos hbr, if_pos (by rw [← hsc]; exact hbr)]
          rw [set_self_of_getElem w i (some it) hit]
        · rw [if_neg hbr, if_neg (by rw [← hsc]; exact hbr)]
          rw [ih]
          unfold incUntilFast
          set w2 := w.set i (some { it with quantity := it.quantity + 1 })
            with hw2
          have hi : i < w.length := by
            rcases List.getElem?_eq_some_iff.mp hit with ⟨hj, _⟩
            exact hj
          have hw2i : w2[i]?
              = some (some { it with quantity := it.quantity + 1 }) :=
            List.getElem?_set_self hi
          have hgd2 : w2.getD i none
              = some { it with quantity := it.quantity + 1 } := by
            rw [List.getD_eq_getElem?_getD, hw2i]
            rfl
          rw [hgd2]
          dsimp only
          have hrest : restPair w2 i = restPair w i := by
            unfold restPair
            rw [hw2, List.set_set]
          rw [hrest, hw2, List.set_set]
      · rw [if_neg hql, if_neg hql]
        rw [set_self_of_getElem w i (some it) hit]

/-- Outer loop of strategies 2 and 3 over the fast inner loop. -/
def strat23GoFast (limit cur : Nat) :
    List Nat → List (Option WSlot) → List (Option WSlot) × Bool
  | [], w => (w, false)
  | i :: rest, w =>
    match incUntilFast limit cur i limit w with
    | (w2, true) => (w2, true)
    | (w2, false) => strat23GoFast limit cur rest w2

theorem strat23Go_cons (limit cur i : Nat) (rest : List Nat)
    (w : List (Option WSlot)) :
    strat23Go limit cur (i :: rest) w
      = (match incUntil limit cur i limit w with
        | (w2, true) => (w2, true)
        | (w2, false) => strat23Go limit cur rest w2) := rfl

theorem strat23GoFast_cons (limit cur i : Nat) (rest : List Nat)
    (w : List (Option WSlot)) :
    strat23GoFast limit cur (i :: rest) w
      = (match incUntilFast limit cur i limit w with
        | (w2, true) => (w2, true)
        | (w2, false) => strat23GoFast limit cur rest w2) := rfl

theorem strat23Go_eq_fast (limit cur : Nat) (idxs : List Nat)
    (w : List (Option WSlot)) :
    strat23Go limit cur idxs w = strat23GoFast limit cur idxs w := by
  induction idxs generalizing w with
  | nil => rfl
  | cons i rest ih =>
    rw [strat23Go_cons, strat23GoFast_cons, incUntil_eq_fast]
    rcases incUntilFast limit cur i limit w with ⟨w2, b⟩
    cases b
    · dsimp only
      exact ih w2
    · rfl

/-- Outer loop of strategy 5 over the fast inner loop. -/
def strat5GoFast (cur : Nat) :
    List Nat → List (Option WSlot) → List (Option WSlot)
  | [], w => w
  | i :: rest, w =>
    let limit :=
      match w.getD i none with
      | some it => it.stack_size
      | none => 0
    match incUntilFast limit cur i limit w with
    | (w2, true) => w2
    | (w2, false) => strat5GoFast cur rest w2

theorem strat5Go_cons (cur i : Nat) (rest : List Nat)
    (w : List (Option WSlot)) :
    strat5Go cur (i :: rest) w
      = (match incUntil
            (match w.getD i none with
              | some it => it.stack_size
              | none => 0) cur i
            (match w.getD i none with
              | some it => it.stack_size
              | none => 0) w with
        | (w2, true) => w2
        | (w2, false) => strat5Go cur rest w2) := rfl

theorem strat5GoFast_cons (cur i : Nat) (rest : List Nat)
    (w : List (Option WSlot)) :
    strat5GoFast cur (i :: rest) w
      = (match incUntilFast
            (match w.getD i none with
              | some it => it.stack_size
              | none => 0) cur i
            (match w.getD i none with
              | some it => it.stack_size
              | none => 0) w with
        | (w2, true) => w2
        | (w2, false) => strat5GoFast cur rest w2) := rfl

theorem strat5Go_eq_fast (cur : Nat) (idxs : List Nat)
    (w : List (Option WSlot)) :
    strat5Go cur idxs w = strat5GoFast cur idxs w := by
  induction idxs generalizing w with
  | nil => rfl
  | cons i rest ih =>
    rw [strat5Go_cons, strat5GoFast_cons, incUntil_eq_fast]
    rcases incUntilFast
      (match w.getD i none with
        | some it => it.stack_size
        | none => 0) cur i
      (match w.getD i none with
        | some it => it.stack_size
        | none => 0) w with ⟨w2, b⟩
    cases b
    · dsimp only
      exact ih w2
    · rfl

/-- Strategy 2 over the fast inner loop. -/
def strategy2Fast (has16 : Bool) (cur : Nat) (w : List (Option WSlot)) :
    List (Option WSlot) × Bool :=
  if has16 then strat23GoFast 16 cur (stackClassIndices 16 w) w
  else (w, false)

/-- Strategy 3 over the fast inner loop. -/
def strategy3Fast (has64 : Bool) (cur : Nat) (w : List (Option WSlot)) :
    List (Option WSlot) × Bool :=
  if has64 then strat23GoFast 64 cur (stackClassIndices 64 w) w
  else (w, false)

/-- Strategy 5 over the fast inner loop. -/
def strat5RunFast (cur : Nat) (w : List (Option WSlot)) :
    List (Option WSlot) :=
  strat5GoFast cur (strat5Indices w) w

theorem strategy2_eq_fast (has16 : Bool) (cur : Nat)
    (w : List (Option WSlot)) :
    strategy2 has16 cur w = strategy2Fast has16 cur w := by
  cases has16 <;>
    simp [strategy2, strategy2Fast, strat23Go_eq_fast]

theorem strategy3_eq_fast (has64 : Bool) (cur : Nat)
    (w : List (Option WSlot)) :
    strategy3 has64 cur w = strategy3Fast has64 cur w := by
  cases has64 <;>
    simp [strategy3, strategy3Fast, strat23Go_eq_fast]

theorem strat5Run_eq_fast (cur : Nat) (w : List (Option WSlot)) :
    strat5Run cur w = strat5RunFast cur w := by
  unfold strat5Run strat5RunFast
  rw [strat5Go_eq_fast]

/-- Pipeline stages over the fast loops. -/
def stage2Fast (c : OptCtx) : List (Option WSlot) × Bool :=
  strategy2Fast c.has16 c.cur (stage1 c).1

/-- Stage 3 over the fast loops. -/
def stage3Fast (c : OptCtx) : List (Option WSlot) × Bool :=
  strategy3Fast c.has64 c.cur (stage2Fast c).1

/-- Stage 4 over the fast loops. -/
def stage4Fast (c : OptCtx) : Option (List (Option WSlot)) :=
  strategy4 c.hasQ c.hasU c.has16 c.has64
    (stage1 c).2 (stage2Fast c).2 (stage3Fast c).2 c.forcedIdx c.cur
    (stage3Fast c).1

/-- Stage 5 over the fast loops. -/
def stage5Fast (c : OptCtx) : Option (List (Option WSlot)) :=
  (stage4Fast c).map fun w => strat5RunFast c.cur w

/-- The optimizer over the fast loops; equal to optimizeForRedstone. -/
def optimizeForRedstoneFast (slots : List (Option Slot)) :
    Option (List (Option Slot)) :=
  if slots.all fun x => x.isNone then some slots
  else (stage5Fast (mkCtx slots)).bind finalizeSlots

theorem stage2_eq_fast (c : OptCtx) : stage2 c = stage2Fast c := by
  unfold stage2 stage2Fast
  rw [strategy2_eq_fast]

theorem stage3_eq_fast (c : OptCtx) : stage3 c = stage3Fast c := by
  unfold stage3 stage3Fast
  rw [strategy3_eq_fast, stage2_eq_fast]

theorem stage4_eq_fast (c : OptCtx) : stage4 c = stage4Fast c := by
  unfold stage4 stage4Fast
  rw [stage2_eq_fast, stage3_eq_fast]

theorem stage5_eq_fast (c : OptCtx) : stage5 c = stage5Fast c := by
  unfold stage5 stage5Fast
  rw [stage4_eq_fast]
  cases stage4Fast c with
  | none => rfl
  | some w =>
    dsimp only [Option.map]
    rw [strat5Run_eq_fast]

theorem optimizeForRedstone_eq_fast (slots : List (Option Slot)) :
    optimizeForRedstone slots = optimizeForRedstoneFast slots := by
  unfold optimizeForRedstone optimizeForRedstoneFast
  rw [stage5_eq_fast]

/-- Test container of the repository suite: n copies of one item after the
reserved slot, padded to 54 entries. -/
def testContainer (item : Slot) (n : Nat) : List (Option Slot) :=
  none :: List.replicate n (some item) ++ List.replicate (53 - n) none

/-- Core of the threshold check of the repository test testSignals: given
the optimizer output, compare the signal before and after, then write one
unit of the occupied item with the largest stack size into slot 0 and
require the signal to rise by exactly one. -/
def thresholdCheckOn (res : Option (List (Option Slot)))
    (slots : List (Option Slot)) : Bool :=
  match res with
  | none => false
  | some out =>
    match out.filterMap fun x => x with
    | [] => false
    | x :: xs =>
      let largest := xs.foldl
        (fun acc cu => if acc.stack_size < cu.stack_size then cu else acc) x
      let bumped := out.set 0 (some { largest with quantity := some 1 })
      calculateSignalStrength out == calculateSignalStrength slots
        && calculateSignalStrength bumped == calculateSignalStrength out + 1

/-- Threshold check of the repository test testSignals on the optimizer. -/
def thresholdCheck (item : Slot) (n : Nat) : Bool :=
  thresholdCheckOn (optimizeForRedstone (testContainer item n))
    (testContainer item n)

/-- Threshold check over the fast optimizer. -/
def thresholdCheckFast (item : Slot) (n : Nat) : Bool :=
  thresholdCheckOn (optimizeForRedstoneFast (testContainer item n))
    (testContainer item n)

theorem thresholdCheck_eq_fast (item : Slot) (n : Nat) :
    thresholdCheck item n = thresholdCheckFast item n := by
  unfold thresholdCheck thresholdCheckFast
  rw [optimizeForRedstone_eq_fast]


/-- Occurrence-count dictionary of the source itemCounts, as an association
list built in one pass over the occupied slots. -/
def bumpCount : List (String × Nat) → String → List (String × Nat)
  | [], s => [(s, 1)]
  | (k, v) :: rest, s =>
    if k == s then (k, v + 1) :: rest else (k, v) :: bumpCount rest s

/-- Builds the itemCounts dictionary. -/
def itemCountsList (w : List (Option WSlot)) : List (String × Nat) :=
  (occList w).foldl (fun acc it => bumpCount acc it.id) []

/-- Dictionary lookup with default 0. -/
def lookupCount (l : List (String × Nat)) (s : String) : Nat :=
  match l.find? fun p => p.1 == s with
  | some p => p.2
  | none => 0

theorem lookupCount_nil (s : String) : lookupCount [] s = 0 := rfl

theorem lookupCount_cons (k : String) (v : Nat) (rest : List (String × Nat))
    (s : String) :
    lookupCount ((k, v) :: rest) s
      = if k == s then v else lookupCount rest s := by
  unfold lookupCount
  by_cases h : k == s
  · rw [List.find?_cons_of_pos _ (by simpa using h)]
    simp [h]
  · rw [List.find?_cons_of_neg _ (by simpa using h)]
    simp [h]

theorem lookupCount_bumpCount (acc : List (String × Nat)) (x s : String) :
    lookupCount (bumpCount acc x) s
      = lookupCount acc s + (if x == s then 1 else 0) := by
  induction acc with
  | nil =>
    rw [show bumpCount [] x = [(x, 1)] from rfl, lookupCount_cons,
      lookupCount_nil]
    by_cases h : x == s <;> simp [h, lookupCount_nil]
  | cons p rest ih =>
    rcases p with ⟨k, v⟩
    rw [show bumpCount ((k, v) :: rest) x
        = (if k == x then (k, v + 1) :: rest else (k, v) :: bumpCount rest x)
      from rfl]
    by_cases hk : k == x
    · rw [if_pos hk, lookupCount_cons, lookupCount_cons]
      have hkx : k = x := by simpa using hk
      subst hkx
      by_cases hs : k == s <;> simp [hs]
    · rw [if_neg hk, lookupCount_cons, lookupCount_cons, ih]
      by_cases hs : k == s
      · have hks : k = s := by simpa using hs
        subst hks
        have hxs : (x == k) = false := by
          rw [beq_eq_false_iff_ne]
          intro hc
          subst hc
          simp at hk
        simp [hs, hxs]
      · simp [hs]

theorem lookupCount_foldl (l : List WSlot) (acc : List (String × Nat))
    (s : String) :
    lookupCount (l.foldl (fun a it => bumpCount a it.id) acc) s
      = lookupCount acc s + l.countP (fun it => it.id == s) := by
  induction l generalizing acc with
  | nil =>
    rw [List.foldl_nil, List.countP_nil]
    omega
  | cons x rest ih =>
    rw [List.foldl_cons, ih, lookupCount_bumpCount, List.countP_cons]
    omega

theorem lookupCount_itemCountsList (w : List (Option WSlot)) (s : String) :
    lookupCount (itemCountsList w) s = countId w s := by
  unfold itemCountsList countId
  rw [lookupCount_foldl, lookupCount_nil]
  omega

/-- Classification over the precomputed count dictionary; equal to
classifySlots. -/
def classifySlotsFast (w : List (Option WSlot)) : List (Option WSlot) :=
  let counts := itemCountsList w
  w.map fun s => s.map fun it =>
    { it with forceAdjusted :=
        decide (1 < it.quantity) || decide (1 < lookupCount counts it.id) }

theorem classifySlots_eq_fast (w : List (Option WSlot)) :
    classifySlots w = classifySlotsFast w := by
  simp only [classifySlots, classifySlotsFast]
  apply List.map_congr_left
  intro os _
  cases os with
  | none => rfl
  | some it =>
    simp [lookupCount_itemCountsList]

/-- Context construction over the fast classification. -/
def mkCtxFast (slots : List (Option Slot)) : OptCtx :=
  let w0 := normalizeSlots slots
  let w1 := classifySlotsFast w0
  let hasQ := hasQuantityAdjustments w1
  let w2 := if hasQ then w1 else markAllForced w1
  let forced := forcedWSlots w2
  { cur := calcW w0, hasQ := hasQ,
    hasU := forced.any fun it => it.stack_size == 1,
    has16 := forced.any fun it => it.stack_size == 16,
    has64 := forced.any fun it => it.stack_size == 64,
    forced := forced, forcedIdx := forcedIndices w2, start := w2 }

theorem mkCtx_eq_fast (slots : List (Option Slot)) :
    mkCtx slots = mkCtxFast slots := by
  simp only [mkCtx, mkCtxFast, classifySlots_eq_fast]

/-- Final phase over the fast classification. -/
def finalizeSlotsFast (w : List (Option WSlot)) :
    Option (List (Option Slot)) :=
  let w2 := classifySlotsFast w
  let withoutNulls := (occList w2).map setAdjusted
  let adjusted := withoutNulls.filter fun it => it.forceAdjusted
  let unadjusted := withoutNulls.filter fun it => !it.forceAdjusted
  let sortedAdj := List.insertionSort adjLE adjusted
  if 53 < unadjusted.length + adjusted.length then none
  else
    some ((none :: unadjusted.map fun it => some it.toSlot)
      ++ List.replicate (53 - (unadjusted.length + adjusted.length)) none
      ++ sortedAdj.map fun it => some it.toSlot)

theorem finalizeSlots_eq_fast (w : List (Option WSlot)) :
    finalizeSlots w = finalizeSlotsFast w := by
  simp only [finalizeSlots, finalizeSlotsFast, classifySlots_eq_fast]

/-- The optimizer over the fast loops and fast classification. -/
def optimizeForRedstoneFaster (slots : List (Option Slot)) :
    Option (List (Option Slot)) :=
  if slots.all fun x => x.isNone then some slots
  else (stage5Fast (mkCtxFast slots)).bind finalizeSlotsFast

theorem optimizeForRedstone_eq_faster (slots : List (Option Slot)) :
    optimizeForRedstone slots = optimizeForRedstoneFaster slots := by
  rw [optimizeForRedstone_eq_fast]
  unfold optimizeForRedstoneFast optimizeForRedstoneFaster
  rw [← mkCtx_eq_fast]
  have hb : ∀ x : Option (List (Option WSlot)),
      x.bind finalizeSlots = x.bind finalizeSlotsFast := by
    intro x
    cases x with
    | none => rfl
    | some v => exact finalizeSlots_eq_fast v
  rw [hb]

/-- Threshold check over the faster optimizer. -/
def thresholdCheckFaster (item : Slot) (n : Nat) : Bool :=
  thresholdCheckOn (optimizeForRedstoneFaster (testContainer item n))
    (testContainer item n)

theorem thresholdCheck_eq_faster (item : Slot) (n : Nat) :
    thresholdCheck item n = thresholdCheckFaster item n := by
  unfold thresholdCheck thresholdCheckFaster
  rw [optimizeForRedstone_eq_faster]

/-- Sixteen-stack variant of the test item. -/
def testStackable16 : Slot := { testUnstackable with stack_size := 16 }

/-- Sixty-four-stack variant of the test item. -/
def testStackable64 : Slot := { testUnstackable with stack_size := 64 }


set_option maxRecDepth 1000000 in
theorem thresholdCheck_case_1 :
    (thresholdCheck testUnstackable 1 && thresholdCheck testStackable16 1
      && thresholdCheck testStackable64 1) = true := by
  rw [thresholdCheck_eq_faster, thresholdCheck_eq_faster,
    thresholdCheck_eq_faster]
  decide

set_option maxRecDepth 1000000 in
theorem thresholdCheck_case_2 :
    (thresholdCheck testUnstackable 2 && thresholdCheck testStackable16 2
      && thresholdCheck testStackable64 2) = true := by
  rw [thresholdCheck_eq_faster, thresholdCheck_eq_faster,
    thresholdCheck_eq_faster]
  decide

set_option maxRecDepth 1000000 in
theorem thresholdCheck_case_3 :
    (thresholdCheck testUnstackable 3 && thresholdCheck testStackable16 3
      && thresholdCheck testStackable64 3) = true := by
  rw [thresholdCheck_eq_faster, thresholdCheck_eq_faster,
    thresholdCheck_eq_faster]
  decide

set_option maxRecDepth 1000000 in
theorem thresholdCheck_case_4 :
    (thresholdCheck testUnstackable 4 && thresholdCheck testStackable16 4
      && thresholdCheck testStackable64 4) = true := by
  rw [thresholdCheck_eq_faster, thresholdCheck_eq_faster,
    thresholdCheck_eq_faster]
  decide

set_option maxRecDepth 1000000 in
theorem thresholdCheck_case_5 :
    (thresholdCheck testUnstackable 5 && thresholdCheck testStackable16 5
      && thresholdCheck testStackable64 5) = true := by
  rw [thresholdCheck_eq_faster, thresholdCheck_eq_faster,
    thresholdCheck_eq_faster]
  decide

set_option maxRecDepth 1000000 in
theorem thresholdCheck_case_6 :
    (thresholdCheck testUnstackable 6 && thresholdCheck testStackable16 6
      && thresholdCheck testStackable64 6) = true := by
  rw [thresholdCheck_eq_faster, thresholdCheck_eq_faster,
    thresholdCheck_eq_faster]
  decide

set_option maxRecDepth 1000000 in
theorem thresholdCheck_case_7 :
    (thresholdCheck testUnstackable 7 && thresholdCheck testStackable16 7
      && thresholdCheck testStackable64 7) = true := by
  rw [thresholdCheck_eq_faster, thresholdCheck_eq_faster,
    thresholdCheck_eq_faster]
  decide

set_option maxRecDepth 1000000 in
theorem thresholdCheck_case_8 :
    (thresholdCheck testUnstackable 8 && thresholdCheck testStackable16 8
      && thresholdCheck testStackable64 8) = true := by
  rw [thresholdCheck_eq_faster, thresholdCheck_eq_faster,
    thresholdCheck_eq_faster]
  decide

set_option maxRecDepth 1000000 in
theorem thresholdCheck_case_9 :
    (thresholdCheck testUnstackable 9 && thresholdCheck testStackable16 9
      && thresholdCheck testStackable64 9) = true := by
  rw [thresholdCheck_eq_faster, thresholdCheck_eq_faster,
    thresholdCheck_eq_faster]
  decide

set_option maxRecDepth 1000000 in
theorem thresholdCheck_case_10 :
    (thresholdCheck testUnstackable 10 && thresholdCheck testStackable16 10
      && thresholdCheck testStackable64 10) = true := by
  rw [thresholdCheck_eq_faster, thresholdCheck_eq_faster,
    thresholdCheck_eq_faster]
  decide

set_option maxRecDepth 1000000 in
theorem thresholdCheck_case_11 :
    (thresholdCheck testUnstackable 11 && thresholdCheck testStackable16 11
      && thresholdCheck testStackable64 11) = true := by
  rw [thresholdCheck_eq_faster, thresholdCheck_eq_faster,
    thresholdCheck_eq_faster]
  decide

set_option maxRecDepth 1000000 in
theorem thresholdCheck_case_12 :
    (thresholdCheck testUnstackable 12 && thresholdCheck testStackable16 12
      && thresholdCheck testStackable64 12) = true := by
  rw [thresholdCheck_eq_faster, thresholdCheck_eq_faster,
    thresholdCheck_eq_faster]
  decide

set_option maxRecDepth 1000000 in
theorem thresholdCheck_case_13 :
    (thresholdCheck testUnstackable 13 && thresholdCheck testStackable16 13
      && thresholdCheck testStackable64 13) = true := by
  rw [thresholdCheck_eq_faster, thresholdCheck_eq_faster,
    thresholdCheck_eq_faster]
  decide

set_option maxRecDepth 1000000 in
theorem thresholdCheck_case_14 :
    (thresholdCheck testUnstackable 14 && thresholdCheck testStackable16 14
      && thresholdCheck testStackable64 14) = true := by
  rw [thresholdCheck_eq_faster, thresholdCheck_eq_faster,
    thresholdCheck_eq_faster]
  decide

set_option maxRecDepth 1000000 in
theorem thresholdCheck_case_15 :
    (thresholdCheck testUnstackable 15 && thresholdCheck testStackable16 15
      && thresholdCheck testStackable64 15) = true := by
  rw [thresholdCheck_eq_faster, thresholdCheck_eq_faster,
    thresholdCheck_eq_faster]
  decide

set_option maxRecDepth 1000000 in
theorem thresholdCheck_case_16 :
    (thresholdCheck testUnstackable 16 && thresholdCheck testStackable16 16
      && thresholdCheck testStackable64 16) = true := by
  rw [thresholdCheck_eq_faster, thresholdCheck_eq_faster,
    thresholdCheck_eq_faster]
  decide

set_option maxRecDepth 1000000 in
theorem thresholdCheck_case_17 :
    (thresholdCheck testUnstackable 17 && thresholdCheck testStackable16 17
      && thresholdCheck testStackable64 17) = true := by
  rw [thresholdCheck_eq_faster, thresholdCheck_eq_faster,
    thresholdCheck_eq_faster]
  decide

set_option maxRecDepth 1000000 in
theorem thresholdCheck_case_18 :
    (thresholdCheck testUnstackable 18 && thresholdCheck testStackable16 18
      && thresholdCheck testStackable64 18) = true := by
  rw [thresholdCheck_eq_faster, thresholdCheck_eq_faster,
    thresholdCheck_eq_faster]
  decide

set_option maxRecDepth 1000000 in
theorem thresholdCheck_case_19 :
    (thresholdCheck testUnstackable 19 && thresholdCheck testStackable16 19
      && thresholdCheck testStackable64 19) = true := by
  rw [thresholdCheck_eq_faster, thresholdCheck_eq_faster,
    thresholdCheck_eq_faster]
  decide

set_option maxRecDepth 1000000 in
theorem thresholdCheck_case_20 :
    (thresholdCheck testUnstackable 20 && thresholdCheck testStackable16 20
      && thresholdCheck testStackable64 20) = true := by
  rw [thresholdCheck_eq_faster, thresholdCheck_eq_faster,
    thresholdCheck_eq_faster]
  decide

set_option maxRecDepth 1000000 in
theorem thresholdCheck_case_21 :
    (thresholdCheck testUnstackable 21 && thresholdCheck testStackable16 21
      && thresholdCheck testStackable64 21) = true := by
  rw [thresholdCheck_eq_faster, thresholdCheck_eq_faster,
    thresholdCheck_eq_faster]
  decide

set_option maxRecDepth 1000000 in
theorem thresholdCheck_case_22 :
    (thresholdCheck testUnstackable 22 && thresholdCheck testStackable16 22
      && thresholdCheck testStackable64 22) = true := by
  rw [thresholdCheck_eq_faster, thresholdCheck_eq_faster,
    thresholdCheck_eq_faster]
  decide

set_option maxRecDepth 1000000 in
theorem thresholdCheck_case_23 :
    (thresholdCheck testUnstackable 23 && thresholdCheck testStackable16 23
      && thresholdCheck testStackable64 23) = true := by
  rw [thresholdCheck_eq_faster, thresholdCheck_eq_faster,
    thresholdCheck_eq_faster]
  decide

set_option maxRecDepth 1000000 in
theorem thresholdCheck_case_24 :
    (thresholdCheck testUnstackable 24 && thresholdCheck testStackable16 24
      && thresholdCheck testStackable64 24) = true := by
  rw [thresholdCheck_eq_faster, thresholdCheck_eq_faster,
    thresholdCheck_eq_faster]
  decide

set_option maxRecDepth 1000000 in
theorem thresholdCheck_case_25 :
    (thresholdCheck testUnstackable 25 && thresholdCheck testStackable16 25
      && thresholdCheck testStackable64 25) = true := by
  rw [thresholdCheck_eq_faster, thresholdCheck_eq_faster,
    thresholdCheck_eq_faster]
  decide

set_option maxRecDepth 1000000 in
theorem thresholdCheck_case_26 :
    (thresholdCheck testUnstackable 26 && thresholdCheck testStackable16 26
      && thresholdCheck testStackable64 26) = true := by
  rw [thresholdCheck_eq_faster, thresholdCheck_eq_faster,
    thresholdCheck_eq_faster]
  decide

set_option maxRecDepth 1000000 in
theorem thresholdCheck_case_27 :
    (thresholdCheck testUnstackable 27 && thresholdCheck testStackable16 27
      && thresholdCheck testStackable64 27) = true := by
  rw [thresholdCheck_eq_faster, thresholdCheck_eq_faster,
    thresholdCheck_eq_faster]
  decide

set_option maxRecDepth 1000000 in
theorem thresholdCheck_case_28 :
    (thresholdCheck testUnstackable 28 && thresholdCheck testStackable16 28
      && thresholdCheck testStackable64 28) = true := by
  rw [thresholdCheck_eq_faster, thresholdCheck_eq_faster,
    thresholdCheck_eq_faster]
  decide

set_option maxRecDepth 1000000 in
theorem thresholdCheck_case_29 :
    (thresholdCheck testUnstackable 29 && thresholdCheck testStackable16 29
      && thresholdCheck testStackable64 29) = true := by
  rw [thresholdCheck_eq_faster, thresholdCheck_eq_faster,
    thresholdCheck_eq_faster]
  decide

set_option maxRecDepth 1000000 in
theorem thresholdCheck_case_30 :
    (thresholdCheck testUnstackable 30 && thresholdCheck testStackable16 30
      && thresholdCheck testStackable64 30) = true := by
  rw [thresholdCheck_eq_faster, thresholdCheck_eq_faster,
    thresholdCheck_eq_faster]
  decide

set_option maxRecDepth 1000000 in
theorem thresholdCheck_case_31 :
    (thresholdCheck testUnstackable 31 && thresholdCheck testStackable16 31
      && thresholdCheck testStackable64 31) = true := by
  rw [thresholdCheck_eq_faster, thresholdCheck_eq_faster,
    thresholdCheck_eq_faster]
  decide

set_option maxRecDepth 1000000 in
theorem thresholdCheck_case_32 :
    (thresholdCheck testUnstackable 32 && thresholdCheck testStackable16 32
      && thresholdCheck testStackable64 32) = true := by
  rw [thresholdCheck_eq_faster, thresholdCheck_eq_faster,
    thresholdCheck_eq_faster]
  decide

set_option maxRecDepth 1000000 in
theorem thresholdCheck_case_33 :
    (thresholdCheck testUnstackable 33 && thresholdCheck testStackable16 33
      && thresholdCheck testStackable64 33) = true := by
  rw [thresholdCheck_eq_faster, thresholdCheck_eq_faster,
    thresholdCheck_eq_faster]
  decide

set_option maxRecDepth 1000000 in
theorem thresholdCheck_case_34 :
    (thresholdCheck testUnstackable 34 && thresholdCheck testStackable16 34
      && thresholdCheck testStackable64 34) = true := by
  rw [thresholdCheck_eq_faster, thresholdCheck_eq_faster,
    thresholdCheck_eq_faster]
  decide

set_option maxRecDepth 1000000 in
theorem thresholdCheck_case_35 :
    (thresholdCheck testUnstackable 35 && thresholdCheck testStackable16 35
      && thresholdCheck testStackable64 35) = true := by
  rw [thresholdCheck_eq_faster, thresholdCheck_eq_faster,
    thresholdCheck_eq_faster]
  decide

set_option maxRecDepth 1000000 in
theorem thresholdCheck_case_36 :
    (thresholdCheck testUnstackable 36 && thresholdCheck testStackable16 36
      && thresholdCheck testStackable64 36) = true := by
  rw [thresholdCheck_eq_faster, thresholdCheck_eq_faster,
    thresholdCheck_eq_faster]
  decide

set_option maxRecDepth 1000000 in
theorem thresholdCheck_case_37 :
    (thresholdCheck testUnstackable 37 && thresholdCheck testStackable16 37
      && thresholdCheck testStackable64 37) = true := by
  rw [thresholdCheck_eq_faster, thresholdCheck_eq_faster,
    thresholdCheck_eq_faster]
  decide

set_option maxRecDepth 1000000 in
theorem thresholdCheck_case_38 :
    (thresholdCheck testUnstackable 38 && thresholdCheck testStackable16 38
      && thresholdCheck testStackable64 38) = true := by
  rw [thresholdCheck_eq_faster, thresholdCheck_eq_faster,
    thresholdCheck_eq_faster]
  decide

set_option maxRecDepth 1000000 in
theorem thresholdCheck_case_39 :
    (thresholdCheck testUnstackable 39 && thresholdCheck testStackable16 39
      && thresholdCheck testStackable64 39) = true := by
  rw [thresholdCheck_eq_faster, thresholdCheck_eq_faster,
    thresholdCheck_eq_faster]
  decide

set_option maxRecDepth 1000000 in
theorem thresholdCheck_case_40 :
    (thresholdCheck testUnstackable 40 && thresholdCheck testStackable16 40
      && thresholdCheck testStackable64 40) = true := by
  rw [thresholdCheck_eq_faster, thresholdCheck_eq_faster,
    thresholdCheck_eq_faster]
  decide

set_option maxRecDepth 1000000 in
theorem thresholdCheck_case_41 :
    (thresholdCheck testUnstackable 41 && thresholdCheck testStackable16 41
      && thresholdCheck testStackable64 41) = true := by
  rw [thresholdCheck_eq_faster, thresholdCheck_eq_faster,
    thresholdCheck_eq_faster]
  decide

set_option maxRecDepth 1000000 in
theorem thresholdCheck_case_42 :
    (thresholdCheck testUnstackable 42 && thresholdCheck testStackable16 42
      && thresholdCheck testStackable64 42) = true := by
  rw [thresholdCheck_eq_faster, thresholdCheck_eq_faster,
    thresholdCheck_eq_faster]
  decide

set_option maxRecDepth 1000000 in
theorem thresholdCheck_case_43 :
    (thresholdCheck testUnstackable 43 && thresholdCheck testStackable16 43
      && thresholdCheck testStackable64 43) = true := by
  rw [thresholdCheck_eq_faster, thresholdCheck_eq_faster,
    thresholdCheck_eq_faster]
  decide

set_option maxRecDepth 1000000 in
theorem thresholdCheck_case_44 :
    (thresholdCheck testUnstackable 44 && thresholdCheck testStackable16 44
      && thresholdCheck testStackable64 44) = true := by
  rw [thresholdCheck_eq_faster, thresholdCheck_eq_faster,
    thresholdCheck_eq_faster]
  decide

set_option maxRecDepth 1000000 in
theorem thresholdCheck_case_45 :
    (thresholdCheck testUnstackable 45 && thresholdCheck testStackable16 45
      && thresholdCheck testStackable64 45) = true := by
  rw [thresholdCheck_eq_faster, thresholdCheck_eq_faster,
    thresholdCheck_eq_faster]
  decide

set_option maxRecDepth 1000000 in
theorem thresholdCheck_case_46 :
    (thresholdCheck testUnstackable 46 && thresholdCheck testStackable16 46
      && thresholdCheck testStackable64 46) = true := by
  rw [thresholdCheck_eq_faster, thresholdCheck_eq_faster,
    thresholdCheck_eq_faster]
  decide

set_option maxRecDepth 1000000 in
theorem thresholdCheck_case_47 :
    (thresholdCheck testUnstackable 47 && thresholdCheck testStackable16 47
      && thresholdCheck testStackable64 47) = true := by
  rw [thresholdCheck_eq_faster, thresholdCheck_eq_faster,
    thresholdCheck_eq_faster]
  decide

set_option maxRecDepth 1000000 in
theorem thresholdCheck_case_48 :
    (thresholdCheck testUnstackable 48 && thresholdCheck testStackable16 48
      && thresholdCheck testStackable64 48) = true := by
  rw [thresholdCheck_eq_faster, thresholdCheck_eq_faster,
    thresholdCheck_eq_faster]
  decide

set_option maxRecDepth 1000000 in
theorem thresholdCheck_case_49 :
    (thresholdCheck testUnstackable 49 && thresholdCheck testStackable16 49
      && thresholdCheck testStackable64 49) = true := by
  rw [thresholdCheck_eq_faster, thresholdCheck_eq_faster,
    thresholdCheck_eq_faster]
  decide

set_option maxRecDepth 1000000 in
theorem thresholdCheck_case_50 :
    (thresholdCheck testUnstackable 50 && thresholdCheck testStackable16 50
      && thresholdCheck testStackable64 50) = true := by
  rw [thresholdCheck_eq_faster, thresholdCheck_eq_faster,
    thresholdCheck_eq_faster]
  decide

set_option maxRecDepth 1000000 in
theorem thresholdCheck_case_51 :
    (thresholdCheck testUnstackable 51 && thresholdCheck testStackable16 51
      && thresholdCheck testStackable64 51) = true := by
  rw [thresholdCheck_eq_faster, thresholdCheck_eq_faster,
    thresholdCheck_eq_faster]
  decide

set_option maxRecDepth 1000000 in
theorem thresholdCheck_case_52 :
    (thresholdCheck testUnstackable 52 && thresholdCheck testStackable16 52
      && thresholdCheck testStackable64 52) = true := by
  rw [thresholdCheck_eq_faster, thresholdCheck_eq_faster,
    thresholdCheck_eq_faster]
  decide

set_option maxRecDepth 1000000 in
theorem thresholdCheck_case_53 :
    (thresholdCheck testUnstackable 53 && thresholdCheck testStackable16 53
      && thresholdCheck testStackable64 53) = true := by
  rw [thresholdCheck_eq_faster, thresholdCheck_eq_faster,
    thresholdCheck_eq_faster]
  decide

/-- C3: for every container of n items of one stack class (1, 16 or 64),
n from 1 to 53, the optimized container keeps its signal and writing one
quantity-1 unit of the occupied item with the largest stack size into the
reserved slot raises the signal by exactly one. -/
theorem C3_threshold_tightness :
    ∀ n, 1 ≤ n → n ≤ 53 →
      (thresholdCheck testUnstackable n && thresholdCheck testStackable16 n
        && thresholdCheck testStackable64 n) = true := by
  intro n h1 h2
  interval_cases n
  · exact thresholdCheck_case_1
  · exact thresholdCheck_case_2
  · exact thresholdCheck_case_3
  · exact thresholdCheck_case_4
  · exact thresholdCheck_case_5
  · exact thresholdCheck_case_6
  · exact thresholdCheck_case_7
  · exact thresholdCheck_case_8
  · exact thresholdCheck_case_9
  · exact thresholdCheck_case_10
  · exact thresholdCheck_case_11
  · exact thresholdCheck_case_12
  · exact thresholdCheck_case_13
  · exact thresholdCheck_case_14
  · exact thresholdCheck_case_15
  · exact thresholdCheck_case_16
  · exact thresholdCheck_case_17
  · exact thresholdCheck_case_18
  · exact thresholdCheck_case_19
  · exact thresholdCheck_case_20
  · exact thresholdCheck_case_21
  · exact thresholdCheck_case_22
  · exact thresholdCheck_case_23
  · exact thresholdCheck_case_24
  · exact thresholdCheck_case_25
  · exact thresholdCheck_case_26
  · exact thresholdCheck_case_27
  · exact thresholdCheck_case_28
  · exact thresholdCheck_case_29
  · exact thresholdCheck_case_30
  · exact thresholdCheck_case_31
  · exact thresholdCheck_case_32
  · exact thresholdCheck_case_33
  · exact thresholdCheck_case_34
  · exact thresholdCheck_case_35
  · exact thresholdCheck_case_36
  · exact thresholdCheck_case_37
  · exact thresholdCheck_case_38
  · exact thresholdCheck_case_39
  · exact thresholdCheck_case_40
  · exact thresholdCheck_case_41
  · exact thresholdCheck_case_42
  · exact thresholdCheck_case_43
  · exact thresholdCheck_case_44
  · exact thresholdCheck_case_45
  · exact thresholdCheck_case_46
  · exact thresholdCheck_case_47
  · exact thresholdCheck_case_48
  · exact thresholdCheck_case_49
  · exact thresholdCheck_case_50
  · exact thresholdCheck_case_51
  · exact thresholdCheck_case_52
  · exact thresholdCheck_case_53

/-- Witness for C3 at n = 7. -/
theorem C3_threshold_tightness_witness :
    1 ≤ 7 ∧ 7 ≤ 53
      ∧ (thresholdCheck testUnstackable 7 && thresholdCheck testStackable16 7
        && thresholdCheck testStackable64 7) = true :=
  ⟨by norm_num, by norm_num, C3_threshold_tightness 7 (by norm_num) (by norm_num)⟩
